import Mathlib

/-!
Verification development for the clipboard capture and history store of the
Paste-Fork repository (src/backend/clipboard.rs).  The SQLite-backed store is
embedded as a list of rows in rowid order; the SQL statements executed by the
Rust code are translated into executable Lean functions over that list, and
the clipboard-change handler is translated with its inputs (focused app name,
icon path, current time, clipboard read result) passed explicitly.
-/

deriving instance DecidableEq for Except

namespace Paste

/-- Storage classes a `content` cell can hold.  `save_text` binds a Rust
`&str` (stored as SQLite TEXT), `save_image` binds a `Vec<u8>` (stored as
BLOB); SQLite never considers a TEXT value equal to a BLOB value. -/
inductive SqlValue where
  | text (t : String)
  | blob (b : List Nat)
deriving DecidableEq, Repr

/-- One row of the `history` table, with the column types declared in the
schema: `id INTEGER PRIMARY KEY`, `source_app`/`icon_path`/`content_type`/
`timestamp` TEXT, `content` BLOB (dynamically typed in SQLite, see
`SqlValue`). -/
structure DbRow where
  id : Int
  source_app : String
  icon_path : String
  content_type : String
  content : SqlValue
  timestamp : String
deriving DecidableEq, Repr

/-- The `history` table, in rowid order. -/
abbrev Store := List DbRow

/-- ASCII lower-casing of one character, the folding used by SQLite's default
`LIKE` (case-insensitive for ASCII only). -/
def lowerAscii (c : Char) : Char :=
  if 65 ≤ c.toNat ∧ c.toNat ≤ 90 then Char.ofNat (c.toNat + 32) else c

/-- Case-sensitive "starts with": models the byte comparison underlying Rust's
`str::contains` needle test at one position. -/
def prefixEq : List Char → List Char → Bool
  | [], _ => true
  | _ :: _, [] => false
  | a :: as, b :: bs => (a == b) && prefixEq as bs

/-- Rust `haystack.contains(needle)`: some suffix of the haystack starts with
the needle (case-sensitive). -/
def strContains (hay needle : String) : Bool :=
  hay.data.tails.any (prefixEq needle.data)

/-- ASCII-case-insensitive "starts with". -/
def prefixEqLower : List Char → List Char → Bool
  | [], _ => true
  | _ :: _, [] => false
  | a :: as, b :: bs => (lowerAscii a == lowerAscii b) && prefixEqLower as bs

/-- ASCII-case-insensitive substring containment of `needle` in `hay`. -/
def containsLower (needle hay : List Char) : Bool :=
  hay.tails.any (prefixEqLower needle)

/-- SQLite default `LIKE` (no ESCAPE): `%` matches any character sequence
(equivalently, the rest of the pattern matches some suffix), `_` matches any
single character, every other pattern character matches ASCII-case-
insensitively. -/
def likeMatch : List Char → List Char → Bool
  | [], cs => cs.isEmpty
  | p :: ps, cs =>
    if p = '%' then
      cs.tails.any (likeMatch ps)
    else
      match cs with
      | [] => false
      | c :: cs' => (p == '_' || lowerAscii p == lowerAscii c) && likeMatch ps cs'

/-- The `LIKE` pattern `format!("%{}%", term)` built by `search_text`. -/
def likePattern (term : String) : List Char :=
  '%' :: (term.data ++ ['%'])

/-- True when the term contains neither `LIKE` wildcard character. -/
def noWildcards (t : List Char) : Bool :=
  t.all (fun c => !(c == '%') && !(c == '_'))

/-- The fixed deny-list of `on_clipboard_change`:
`IGNORED_APPS: &[&str] = &["Passwords", "Keychain Access", "Bitwarden"]`. -/
def IGNORED_APPS : List String :=
  ["Passwords", "Keychain Access", "Bitwarden"]

/-- The handler's filter condition
`IGNORED_APPS.iter().any(|a| current_focus_app.contains(a))`
(Rust `str::contains`, hence case-sensitive). -/
def isIgnoredApp (app : String) : Bool :=
  IGNORED_APPS.any (fun ignored => strContains app ignored)

/-- Gregorian leap-year test, as used by the calendar validation of
`chrono::NaiveDateTime::parse_from_str`. -/
def isLeapYear (y : Nat) : Bool :=
  (y % 4 == 0 && y % 100 != 0) || (y % 400 == 0)

/-- Number of days of month `m` in year `y`. -/
def daysInMonth (y m : Nat) : Nat :=
  if m == 2 then (if isLeapYear y then 29 else 28)
  else if m == 4 || m == 6 || m == 9 || m == 11 then 30
  else 31

/-- Numeric value of a decimal digit character. -/
def digitVal (c : Char) : Nat := c.toNat - 48

/-- Parsing of a stored timestamp with
`NaiveDateTime::parse_from_str(ts, "%Y-%m-%d %H:%M:%S")`, modelled on the
canonical fixed-width form that SQLite's `DATETIME('NOW','UTC')` writes:
`YYYY-MM-DD HH:MM:SS` with a valid calendar date, hour below 24, minute
below 60 and second at most 60 (chrono admits 60 for leap seconds).
Returns the parsed fields, or `none` when parsing fails. -/
def parseTimestamp (ts : String) : Option (Nat × Nat × Nat × Nat × Nat × Nat) :=
  match ts.data with
  | [y1, y2, y3, y4, a1, m1, m2, a2, d1, d2, a3, h1, h2, a4, i1, i2, a5, s1, s2] =>
    if a1 = '-' ∧ a2 = '-' ∧ a3 = ' ' ∧ a4 = ':' ∧ a5 = ':' ∧
       ([y1, y2, y3, y4, m1, m2, d1, d2, h1, h2, i1, i2, s1, s2].all Char.isDigit = true) then
      let y := 1000 * digitVal y1 + 100 * digitVal y2 + 10 * digitVal y3 + digitVal y4
      let mo := 10 * digitVal m1 + digitVal m2
      let d := 10 * digitVal d1 + digitVal d2
      let h := 10 * digitVal h1 + digitVal h2
      let mi := 10 * digitVal i1 + digitVal i2
      let se := 10 * digitVal s1 + digitVal s2
      if 1 ≤ mo ∧ mo ≤ 12 ∧ 1 ≤ d ∧ d ≤ daysInMonth y mo ∧ h ≤ 23 ∧ mi ≤ 59 ∧ se ≤ 60 then
        some (y, mo, d, h, mi, se)
      else none
    else none
  | _ => none

/-- Timestamp decoding of `row_to_item`: a `DateTime<Utc>` is modelled by its
canonical rendering, so a parsable stored string is kept as is, and a failed
parse falls back to `Utc::now()` (the `now` argument), exactly the
`unwrap_or_else(|_| Utc::now())` in the source. -/
def decodeTimestamp (now raw : String) : String :=
  if (parseTimestamp raw).isSome then raw else now

/-- UTF-8 encoding of one scalar value, as Rust encodes `str` bytes. -/
def utf8EncodeCharNat (c : Char) : List Nat :=
  let n := c.toNat
  if n < 128 then [n]
  else if n < 2048 then [192 + n / 64, 128 + n % 64]
  else if n < 65536 then [224 + n / 4096, 128 + n / 64 % 64, 128 + n % 64]
  else [240 + n / 262144, 128 + n / 4096 % 64, 128 + n / 64 % 64, 128 + n % 64]

/-- UTF-8 bytes of a string (`str::as_bytes`). -/
def utf8Bytes (s : String) : List Nat :=
  (s.data.map utf8EncodeCharNat).flatten

/-- True when the byte is a UTF-8 continuation byte. -/
def contByte (b : Nat) : Bool := decide (128 ≤ b ∧ b ≤ 191)

/-- Admissible second byte after a 3-byte leader (surrogate and overlong
exclusions of UTF-8). -/
def cont2ok (b b2 : Nat) : Bool :=
  if b == 224 then decide (160 ≤ b2 ∧ b2 ≤ 191)
  else if b == 237 then decide (128 ≤ b2 ∧ b2 ≤ 159)
  else contByte b2

/-- Admissible second byte after a 4-byte leader. -/
def cont4ok (b b2 : Nat) : Bool :=
  if b == 240 then decide (144 ≤ b2 ∧ b2 ≤ 191)
  else if b == 244 then decide (128 ≤ b2 ∧ b2 ≤ 143)
  else contByte b2

/-- Fuelled UTF-8 decoder with replacement characters for invalid input,
modelling `String::from_utf8_lossy`.  On valid UTF-8 it is exact; for invalid
sequences the number of replacement characters emitted is approximated (one
per rejected leader), which no row written by this program can reach, since
text content is stored as SQLite TEXT. -/
def utf8LossyGo : Nat → List Nat → List Char
  | 0, _ => []
  | _ + 1, [] => []
  | fuel + 1, b :: rest =>
    if b < 128 then Char.ofNat b :: utf8LossyGo fuel rest
    else if 194 ≤ b ∧ b ≤ 223 then
      match rest with
      | b2 :: rest2 =>
        if contByte b2 then
          Char.ofNat ((b - 192) * 64 + (b2 - 128)) :: utf8LossyGo fuel rest2
        else Char.ofNat 65533 :: utf8LossyGo fuel rest
      | [] => [Char.ofNat 65533]
    else if 224 ≤ b ∧ b ≤ 239 then
      match rest with
      | b2 :: b3 :: rest3 =>
        if cont2ok b b2 && contByte b3 then
          Char.ofNat ((b - 224) * 4096 + (b2 - 128) * 64 + (b3 - 128)) :: utf8LossyGo fuel rest3
        else Char.ofNat 65533 :: utf8LossyGo fuel rest
      | _ => [Char.ofNat 65533]
    else if 240 ≤ b ∧ b ≤ 244 then
      match rest with
      | b2 :: b3 :: b4 :: rest4 =>
        if cont4ok b b2 && contByte b3 && contByte b4 then
          Char.ofNat ((b - 240) * 262144 + (b2 - 128) * 4096 + (b3 - 128) * 64 + (b4 - 128))
            :: utf8LossyGo fuel rest4
        else Char.ofNat 65533 :: utf8LossyGo fuel rest
      | _ => [Char.ofNat 65533]
    else Char.ofNat 65533 :: utf8LossyGo fuel rest

/-- Lossy UTF-8 decoding of a byte list (`String::from_utf8_lossy`). -/
def utf8Lossy (bs : List Nat) : String :=
  String.mk (utf8LossyGo bs.length bs)

/-- The base64 alphabet of `base64::engine::general_purpose::STANDARD`. -/
def b64Chars : List Char :=
  "ABCDEFGHIJKLMNOPQRSTUVWXYZabcdefghijklmnopqrstuvwxyz0123456789+/".data

/-- Character of the base64 alphabet at a 6-bit index. -/
def b64Char (n : Nat) : Char := b64Chars.getD n 'A'

/-- Standard base64 with padding over byte triples. -/
def base64Go : List Nat → List Char
  | [] => []
  | [a] => [b64Char (a / 4), b64Char (a % 4 * 16), '=', '=']
  | [a, b] => [b64Char (a / 4), b64Char (a % 4 * 16 + b / 16), b64Char (b % 16 * 4), '=']
  | a :: b :: c :: rest =>
    b64Char (a / 4) :: b64Char (a % 4 * 16 + b / 16) :: b64Char (b % 16 * 4 + c / 64)
      :: b64Char (c % 64) :: base64Go rest

/-- `general_purpose::STANDARD.encode` of `row_to_item`. -/
def base64Encode (bs : List Nat) : String := String.mk (base64Go bs)

/-- The `ContentTypes` enum of the Rust code. -/
inductive ContentTypes where
  | TEXT
  | IMAGE
deriving DecidableEq, Repr

/-- The decoded `Item` struct.  `content` is a base64 string for images and
the lossily decoded text for text rows; `timestamp` is the `DateTime<Utc>`
modelled by its canonical rendering (see `decodeTimestamp`). -/
structure Item where
  id : Int
  source_app : String
  icon_path : String
  content_type : ContentTypes
  content : String
  timestamp : String
deriving DecidableEq, Repr

/-- A Rust panic, used for `unreachable!()` and for `Result::unwrap` on an
error value: it aborts the surrounding computation. -/
inductive PanicE where
  | panic
deriving DecidableEq, Repr

/-- Failures of the SQLite layer (`rusqlite::Error`, abstracted).  The code
under verification never constructs `notFound`; the constructor exists so
that the touch-on-missing-id claim can be stated. -/
inductive DbError where
  | ioError
  | notFound
deriving DecidableEq, Repr

/-- Raw bytes of a dynamically typed `content` cell, following the
`match content.data_type()` in `row_to_item`: a BLOB yields its bytes
(`as_blob`), a TEXT value yields its UTF-8 bytes (`as_str().as_bytes()`). -/
def valueBytes : SqlValue → List Nat
  | .blob b => b
  | .text t => utf8Bytes t

/-- `row_to_item`: decodes one row of a query result.  The `content_type`
column is matched against "IMAGE" then "TEXT"; any other stored value hits
`unreachable!()`, a panic that aborts the whole surrounding query.  The
content is base64-encoded for images and lossily UTF-8-decoded for text, and
an unparsable timestamp falls back to `now` (`Utc::now()`). -/
def row_to_item (now : String) (r : DbRow) : Except PanicE Item :=
  if r.content_type = "IMAGE" then
    .ok { id := r.id, source_app := r.source_app, icon_path := r.icon_path,
          content_type := .IMAGE, content := base64Encode (valueBytes r.content),
          timestamp := decodeTimestamp now r.timestamp }
  else if r.content_type = "TEXT" then
    .ok { id := r.id, source_app := r.source_app, icon_path := r.icon_path,
          content_type := .TEXT, content := utf8Lossy (valueBytes r.content),
          timestamp := decodeTimestamp now r.timestamp }
  else
    .error .panic

/-- `stmt.query_map(..., row_to_item)?` followed by `.collect()` on rusqlite
`Result`s: decodes each row in order and stops at the first failure. -/
def collectResults : List DbRow → (DbRow → Except PanicE Item) → Except PanicE (List Item)
  | [], _ => .ok []
  | r :: rs, f =>
    match f r with
    | .error e => .error e
    | .ok it =>
      match collectResults rs f with
      | .error e => .error e
      | .ok its => .ok (it :: its)

/-- Lexicographic (memcmp) order on byte lists, the comparison SQLite's
BINARY collation applies to TEXT values. -/
def bytesLt : List Nat → List Nat → Bool
  | [], [] => false
  | [], _ :: _ => true
  | _ :: _, [] => false
  | a :: as, b :: bs => if a < b then true else if b < a then false else bytesLt as bs

/-- Strict BINARY-collation order on strings (memcmp of their UTF-8 bytes). -/
def strLtB (a b : String) : Bool := bytesLt (utf8Bytes a) (utf8Bytes b)

/-- Reflexive BINARY-collation order on strings. -/
def strLeB (a b : String) : Bool := !(strLtB b a)

/-- Insertion step of `ORDER BY timestamp DESC`: the row is placed before the
first row with a strictly smaller timestamp (BINARY collation on the TEXT
column). -/
def insertDesc (r : DbRow) : List DbRow → List DbRow
  | [] => [r]
  | x :: xs => if strLtB x.timestamp r.timestamp then r :: x :: xs else x :: insertDesc r xs

/-- `ORDER BY timestamp DESC` (ties in an unspecified order, here rowid-stable
up to the insertion strategy). -/
def sortDesc : List DbRow → List DbRow
  | [] => []
  | x :: xs => insertDesc x (sortDesc xs)

/-- Number of rows matched by the upsert's `WHERE content_type = T AND
content = C` clause for one row. -/
def identMatch (ct : String) (cv : SqlValue) (r : DbRow) : Bool :=
  r.content_type == ct && r.content == cv

/-- Rows of the store holding the given content identity. -/
def identRows (ct : String) (cv : SqlValue) (s : Store) : List DbRow :=
  s.filter (identMatch ct cv)

/-- Largest id present (0 for the empty table). -/
def maxId : Store → Int
  | [] => 0
  | r :: rs => max r.id (maxId rs)

/-- Rowid that SQLite assigns to the inserted row of the upsert: one more
than the largest existing rowid (1 for an empty table; the model assumes
nonnegative rowids, which every reachable store satisfies). -/
def nextId (s : Store) : Int := maxId s + 1

/-- Per-row effect of the upsert's UPDATE statement: a row matching the
content identity gets the new `source_app`, `icon_path`, `timestamp`. -/
def upsertUpdate (ct : String) (cv : SqlValue) (app icon now : String) (r : DbRow) : DbRow :=
  if identMatch ct cv r then
    { r with source_app := app, icon_path := icon, timestamp := now }
  else r

/-- The row the upsert's INSERT branch appends. -/
def insertedRow (ct : String) (cv : SqlValue) (app icon now : String) (s : Store) : DbRow :=
  { id := nextId s, source_app := app, icon_path := icon,
    content_type := ct, content := cv, timestamp := now }

/-- The shared upsert of `save_text`/`save_image`:
`UPDATE history SET timestamp = now, source_app = ?1, icon_path = ?2 WHERE
content_type = T AND content = C`, then, when zero rows were affected,
`INSERT INTO history (source_app, icon_path, content_type, content)` — the
omitted `timestamp` column takes its schema default `DATETIME('NOW','UTC')`,
i.e. the same `now`, and the omitted `id` takes the fresh rowid.  When zero
rows match, the UPDATE is the identity, so running it before the INSERT (as
the source does) and skipping it (as written here) coincide. -/
def upsertRow (ct : String) (cv : SqlValue) (app icon now : String) (s : Store) : Store :=
  if (identRows ct cv s).length = 0 then
    s ++ [insertedRow ct cv app icon now s]
  else
    s.map (upsertUpdate ct cv app icon now)

/-- Store effect of `save_text(content)`: the text is bound as a SQLite TEXT
value; `source_app`/`icon_path` come from the focus context provider and
`now` is `DATETIME('NOW','UTC')`. -/
def save_text_rows (content : String) (app icon now : String) (s : Store) : Store :=
  upsertRow "TEXT" (.text content) app icon now s

/-- Store effect of `save_image(image)`.  `enc` is the result of
`ImageBuffer::from_raw` composed with the PNG `write_to` (both in external
crates): `some bytes` when encoding succeeded, `none` when either step
failed, in which case the code stores `Vec::new()` — the empty BLOB. -/
def save_image_rows (enc : Option (List Nat)) (app icon now : String) (s : Store) : Store :=
  upsertRow "IMAGE" (.blob (enc.getD [])) app icon now s

/-- `save_text` as the monitor calls it: a rusqlite `Result`.  `dbFault`
injects an I/O failure of the underlying SQLite call (the only failure source
after the store is open). -/
def save_text (dbFault : Bool) (content app icon now : String) (s : Store) :
    Except DbError Store :=
  if dbFault then .error .ioError else .ok (save_text_rows content app icon now s)

/-- `save_image` as the monitor calls it (see `save_image_rows`, `save_text`). -/
def save_image (dbFault : Bool) (enc : Option (List Nat)) (app icon now : String)
    (s : Store) : Except DbError Store :=
  if dbFault then .error .ioError else .ok (save_image_rows enc app icon now s)

/-- Per-row effect of the touch UPDATE: the row with the given id gets the
new timestamp. -/
def touchUpdate (id : Int) (now : String) (r : DbRow) : DbRow :=
  if r.id == id then { r with timestamp := now } else r

/-- Row effect of `update_timestamp(id)`:
`UPDATE history SET timestamp = DATETIME('NOW','UTC') WHERE id = ?1`. -/
def touchRows (id : Int) (now : String) (s : Store) : Store :=
  s.map (touchUpdate id now)

/-- `update_timestamp(id)`: runs the UPDATE, discards the affected-row count
and returns `Ok(())` — also when no row has the given id. -/
def update_timestamp (id : Int) (now : String) (s : Store) :
    Except DbError (Unit × Store) :=
  .ok ((), touchRows id now s)

/-- `get_all_records()`: every row, `ORDER BY timestamp DESC`, decoded by
`row_to_item` (with `now` the decode-time clock for the fallback). -/
def get_all_records (now : String) (s : Store) : Except PanicE (List Item) :=
  collectResults (sortDesc s) (row_to_item now)

/-- `LIMIT ?1` with an i64 bind: SQLite returns at most `limit` rows for a
nonnegative limit and places no upper bound when the limit is negative. -/
def applyLimit (limit : Int) (l : List DbRow) : List DbRow :=
  if limit < 0 then l else l.take limit.toNat

/-- `get_recent_records(limit)`: `ORDER BY timestamp DESC LIMIT ?1`. -/
def get_recent_records (limit : Int) (now : String) (s : Store) :
    Except PanicE (List Item) :=
  collectResults (applyLimit limit (sortDesc s)) (row_to_item now)

/-- Text SQLite compares against the `LIKE` pattern: TEXT values directly,
BLOB operands via their text conversion (UTF-8 interpretation of the bytes;
unreachable for rows this program writes, whose text content is TEXT). -/
def sqlTextOf : SqlValue → String
  | .text t => t
  | .blob b => utf8Lossy b

/-- The `WHERE content_type = 'TEXT' AND content LIKE '%term%'` clause of
`search_text`, applied to one row. -/
def rowLikeMatch (term : String) (r : DbRow) : Bool :=
  likeMatch (likePattern term) (sqlTextOf r.content).data

/-- Rows selected by `search_text(term)`. -/
def searchFilter (term : String) (s : Store) : Store :=
  s.filter (fun r => r.content_type == "TEXT" && rowLikeMatch term r)

/-- `search_text(term)`: selected rows, `ORDER BY timestamp DESC`, decoded. -/
def search_text (term now : String) (s : Store) : Except PanicE (List Item) :=
  collectResults (sortDesc (searchFilter term s)) (row_to_item now)

/-- State the clipboard-change handler can read and write: the process-wide
`IS_INTERNAL_PASTE` atomic flag and the history table behind `DB_CONN`. -/
structure MonitorState where
  isInternalPaste : Bool
  store : Store
deriving DecidableEq, Repr

/-- Outcome of reading the clipboard: `text` when `clipboard.get_text()`
succeeds, otherwise `image` when `clipboard.get_image()` succeeds (carrying
the PNG-encoding result of the raw buffer, see `save_image_rows`).  The
handler also receives `none` when neither format is readable or when
`Clipboard::new()` itself failed (`get_clipboard` returned `None`). -/
inductive ClipRead where
  | text (t : String)
  | image (enc : Option (List Nat))
deriving DecidableEq, Repr

/-- `clipboard_master::CallbackResult` (only `Next` is used by the code). -/
inductive CallbackResult where
  | next
  | stop
deriving DecidableEq, Repr

/-- `on_clipboard_change`, the handler run on each clipboard-change event.
Execution order, as in the source: (1) `IS_INTERNAL_PASTE.swap(false)` — when
the flag was set, return `Next` without reading the clipboard; (2) the
deny-list check on the focused application's name — on a match, return
`Next`; (3) read the clipboard and `save_text(..).unwrap()` or
`save_image(..).unwrap()` — an `Err` from the store makes the `unwrap` panic.
The focus context (`focusApp`, `iconPath`) and the clock `now` are the values
the wrapped OS calls return during this event. -/
def on_clipboard_change (dbFault : Bool) (focusApp iconPath now : String)
    (clip : Option ClipRead) (st : MonitorState) :
    Except PanicE (CallbackResult × MonitorState) :=
  if st.isInternalPaste then
    .ok (.next, { st with isInternalPaste := false })
  else if isIgnoredApp focusApp then
    .ok (.next, { st with isInternalPaste := false })
  else
    match clip with
    | none => .ok (.next, { st with isInternalPaste := false })
    | some (.text t) =>
      match save_text dbFault t focusApp iconPath now st.store with
      | .ok s' => .ok (.next, { isInternalPaste := false, store := s' })
      | .error _ => .error .panic
    | some (.image enc) =>
      match save_image dbFault enc focusApp iconPath now st.store with
      | .ok s' => .ok (.next, { isInternalPaste := false, store := s' })
      | .error _ => .error .panic

/-- Stores reachable from the freshly created (empty) table through the
write operations of the code: `save_text`, `save_image`, `update_timestamp`. -/
inductive Reachable : Store → Prop
  | init : Reachable []
  | text (content app icon now : String) {s : Store} :
      Reachable s → Reachable (save_text_rows content app icon now s)
  | image (enc : Option (List Nat)) (app icon now : String) {s : Store} :
      Reachable s → Reachable (save_image_rows enc app icon now s)
  | touch (id : Int) (now : String) {s : Store} :
      Reachable s → Reachable (touchRows id now s)

/-- Concrete text row used by witnesses and counterexamples. -/
def helloRow : DbRow :=
  { id := 1, source_app := "Code", icon_path := "/tmp/Code.png",
    content_type := "TEXT", content := .text "Hello",
    timestamp := "2025-01-01 00:00:00" }

/-- Concrete row whose stored `content_type` is neither "TEXT" nor "IMAGE". -/
def corruptTypeRow : DbRow :=
  { id := 2, source_app := "Code", icon_path := "/tmp/Code.png",
    content_type := "FILE", content := .text "x",
    timestamp := "2025-01-01 00:00:01" }

/-- Concrete row with an unparsable stored timestamp. -/
def badTsRow : DbRow :=
  { id := 3, source_app := "Code", icon_path := "/tmp/Code.png",
    content_type := "TEXT", content := .text "y",
    timestamp := "garbage" }

theorem mem_tails_self {α : Type} (l : List α) : l ∈ l.tails := by
  cases l with
  | nil => simp [List.tails]
  | cons x xs => rw [List.tails_cons]; exact List.mem_cons_self _ _

theorem mem_tails_cons {α : Type} {t l : List α} (x : α) (h : t ∈ l.tails) :
    t ∈ (x :: l).tails := by
  rw [List.tails_cons]; exact List.mem_cons_of_mem _ h

theorem nil_mem_tails {α : Type} (l : List α) : [] ∈ l.tails := by
  induction l with
  | nil => simp [List.tails]
  | cons x xs ih => exact mem_tails_cons x ih

theorem likeMatch_nil (cs : List Char) : likeMatch [] cs = cs.isEmpty := by
  simp [likeMatch]

theorem likeMatch_pct (ps cs : List Char) :
    likeMatch ('%' :: ps) cs = cs.tails.any (likeMatch ps) := by
  simp [likeMatch]

theorem likeMatch_cons_nil {p : Char} (h : p ≠ '%') (ps : List Char) :
    likeMatch (p :: ps) [] = false := by
  simp [likeMatch, h]

theorem likeMatch_cons_cons {p : Char} (h : p ≠ '%') (ps : List Char) (c : Char)
    (cs : List Char) :
    likeMatch (p :: ps) (c :: cs) =
      ((p == '_' || lowerAscii p == lowerAscii c) && likeMatch ps cs) := by
  simp [likeMatch, h]

theorem prefixEqLower_to_like :
    ∀ t b : List Char, prefixEqLower t b = true → likeMatch (t ++ ['%']) b = true := by
  intro t
  induction t with
  | nil =>
    intro b _
    show likeMatch ['%'] b = true
    rw [likeMatch_pct, List.any_eq_true]
    exact ⟨[], nil_mem_tails b, by rw [likeMatch_nil]; rfl⟩
  | cons x t ih =>
    intro b hpre
    cases b with
    | nil => simp [prefixEqLower] at hpre
    | cons c bs =>
      have hsplit : (lowerAscii x == lowerAscii c) = true ∧ prefixEqLower t bs = true := by
        simpa [prefixEqLower, Bool.and_eq_true] using hpre
      by_cases hx : x = '%'
      · subst hx
        rw [List.cons_append, likeMatch_pct, List.any_eq_true]
        exact ⟨bs, mem_tails_cons c (mem_tails_self bs), ih bs hsplit.2⟩
      · rw [List.cons_append, likeMatch_cons_cons hx, Bool.and_eq_true]
        exact ⟨by rw [hsplit.1, Bool.or_true], ih bs hsplit.2⟩

theorem like_noWild_elim :
    ∀ t : List Char, noWildcards t = true →
      ∀ b, likeMatch (t ++ ['%']) b = prefixEqLower t b := by
  intro t
  induction t with
  | nil =>
    intro _ b
    show likeMatch ['%'] b = prefixEqLower [] b
    rw [likeMatch_pct]
    have hb : b.tails.any (likeMatch []) = true :=
      List.any_eq_true.mpr ⟨[], nil_mem_tails b, by rw [likeMatch_nil]; rfl⟩
    rw [hb]; rfl
  | cons x t ih =>
    intro hw b
    have hx : ¬ x = '%' := by
      intro hc; subst hc; simp [noWildcards] at hw
    have hu : ¬ x = '_' := by
      intro hc; subst hc; simp [noWildcards] at hw
    have hwt : noWildcards t = true := by
      have := (List.all_eq_true.mp hw)
      exact List.all_eq_true.mpr (fun c hc => this c (List.mem_cons_of_mem _ hc))
    cases b with
    | nil =>
      rw [List.cons_append, likeMatch_cons_nil hx]
      rfl
    | cons c bs =>
      rw [List.cons_append, likeMatch_cons_cons hx, ih hwt bs]
      have hxu : (x == '_') = false := by
        exact beq_eq_false_iff_ne.mpr hu
      rw [hxu, Bool.false_or]
      rfl

theorem mem_insertDesc {x r : DbRow} {l : List DbRow} :
    x ∈ insertDesc r l ↔ x = r ∨ x ∈ l := by
  induction l with
  | nil => simp [insertDesc]
  | cons y ys ih =>
    simp only [insertDesc]
    split
    · simp [List.mem_cons]
    · simp [List.mem_cons, ih]
      tauto

theorem mem_sortDesc {x : DbRow} : ∀ {l : List DbRow}, x ∈ sortDesc l ↔ x ∈ l := by
  intro l
  induction l with
  | nil => simp [sortDesc]
  | cons y ys ih => simp [sortDesc, mem_insertDesc, ih]

theorem identMatch_upsertUpdate (ct' : String) (cv' : SqlValue) (ct : String)
    (cv : SqlValue) (a i t : String) (r : DbRow) :
    identMatch ct' cv' (upsertUpdate ct cv a i t r) = identMatch ct' cv' r := by
  unfold upsertUpdate
  split <;> rfl

theorem identMatch_touchUpdate (ct' : String) (cv' : SqlValue) (id : Int)
    (t : String) (r : DbRow) :
    identMatch ct' cv' (touchUpdate id t r) = identMatch ct' cv' r := by
  unfold touchUpdate
  split <;> rfl

theorem identRows_length_map_upsert (ct' : String) (cv' : SqlValue) (ct : String)
    (cv : SqlValue) (a i t : String) (s : Store) :
    (identRows ct' cv' (s.map (upsertUpdate ct cv a i t))).length
      = (identRows ct' cv' s).length := by
  unfold identRows
  rw [List.filter_map, List.length_map]
  congr 1
  apply List.filter_congr
  intro r _
  simpa using identMatch_upsertUpdate ct' cv' ct cv a i t r

theorem identRows_length_map_touch (ct' : String) (cv' : SqlValue) (id : Int)
    (t : String) (s : Store) :
    (identRows ct' cv' (s.map (touchUpdate id t))).length
      = (identRows ct' cv' s).length := by
  unfold identRows
  rw [List.filter_map, List.length_map]
  congr 1
  apply List.filter_congr
  intro r _
  simpa using identMatch_touchUpdate ct' cv' id t r

theorem identMatch_insertedRow (ct : String) (cv : SqlValue) (a i t : String)
    (s : Store) : identMatch ct cv (insertedRow ct cv a i t s) = true := by
  simp [identMatch, insertedRow]

theorem upsert_count (ct : String) (cv : SqlValue) (a i t : String) (s : Store)
    (h : (identRows ct cv s).length ≤ 1) :
    (identRows ct cv (upsertRow ct cv a i t s)).length = 1 := by
  unfold upsertRow
  split
  case isTrue hz =>
    unfold identRows at hz ⊢
    rw [List.filter_append, List.length_append, hz]
    simp [identMatch_insertedRow]
  case isFalse hz =>
    rw [identRows_length_map_upsert]
    omega

theorem upsert_fields (ct : String) (cv : SqlValue) (a i t : String) (s : Store) :
    ∀ r ∈ upsertRow ct cv a i t s, identMatch ct cv r = true →
      r.source_app = a ∧ r.icon_path = i ∧ r.timestamp = t := by
  intro r hr hm
  unfold upsertRow at hr
  split at hr
  case isTrue hz =>
    rcases List.mem_append.mp hr with hin | hnew
    · exfalso
      have hmem : r ∈ identRows ct cv s := List.mem_filter.mpr ⟨hin, hm⟩
      have hpos : 0 < (identRows ct cv s).length := List.length_pos_of_mem hmem
      omega
    · have heq : r = insertedRow ct cv a i t s := by simpa using hnew
      subst heq
      exact ⟨rfl, rfl, rfl⟩
  case isFalse hz =>
    rcases List.mem_map.mp hr with ⟨r0, hr0, hfr⟩
    subst hfr
    have hm0 : identMatch ct cv r0 = true := by
      rw [← identMatch_upsertUpdate ct cv ct cv a i t r0]; exact hm
    simp [upsertUpdate, hm0]

theorem upsert_preserves_le (ct : String) (cv : SqlValue) (ct0 : String)
    (cv0 : SqlValue) (a i t : String) (s : Store)
    (hall : ∀ ct' cv', (identRows ct' cv' s).length ≤ 1) :
    (identRows ct cv (upsertRow ct0 cv0 a i t s)).length ≤ 1 := by
  unfold upsertRow
  split
  case isTrue hz =>
    unfold identRows at hz ⊢
    rw [List.filter_append, List.length_append]
    by_cases hmatch : identMatch ct cv (insertedRow ct0 cv0 a i t s) = true
    · have hid : ct0 = ct ∧ cv0 = cv := by
        simpa [identMatch, insertedRow, Bool.and_eq_true] using hmatch
      rcases hid with ⟨h1, h2⟩
      subst h1; subst h2
      rw [hz]
      simp [List.filter_cons, hmatch]
    · rw [Bool.not_eq_true] at hmatch
      simp only [List.filter_cons, hmatch, List.filter_nil, List.length_nil]
      have := hall ct cv
      unfold identRows at this
      simpa using this
  case isFalse hz =>
    rw [identRows_length_map_upsert]
    exact hall ct cv

theorem reachable_identRows_le_one {s : Store} (h : Reachable s) :
    ∀ ct cv, (identRows ct cv s).length ≤ 1 := by
  induction h with
  | init => intro ct cv; simp [identRows]
  | text content a i t hs ih =>
    intro ct cv
    exact upsert_preserves_le ct cv "TEXT" (.text content) a i t _ ih
  | image enc a i t hs ih =>
    intro ct cv
    exact upsert_preserves_le ct cv "IMAGE" (.blob (enc.getD [])) a i t _ ih
  | touch id t hs ih =>
    intro ct cv
    unfold touchRows
    rw [identRows_length_map_touch]
    exact ih ct cv

theorem collectResults_ok (f : DbRow → Except PanicE Item) :
    ∀ l : List DbRow, (∀ r ∈ l, ∃ it, f r = .ok it) →
      ∃ its, collectResults l f = .ok its := by
  intro l
  induction l with
  | nil => intro _; exact ⟨[], rfl⟩
  | cons r rs ih =>
    intro h
    rcases h r (List.mem_cons_self _ _) with ⟨it, hit⟩
    rcases ih (fun x hx => h x (List.mem_cons_of_mem _ hx)) with ⟨its, hits⟩
    exact ⟨it :: its, by simp [collectResults, hit, hits]⟩

theorem row_to_item_ok (now : String) (r : DbRow)
    (h : r.content_type = "TEXT" ∨ r.content_type = "IMAGE") :
    ∃ it, row_to_item now r = .ok it := by
  rcases h with h | h <;> simp [row_to_item, h]

theorem row_to_item_ts_fallback (now : String) (r : DbRow)
    (hct : r.content_type = "TEXT" ∨ r.content_type = "IMAGE")
    (hts : parseTimestamp r.timestamp = none) :
    ∃ it, row_to_item now r = .ok it ∧ it.timestamp = now := by
  rcases hct with h | h <;>
    simp [row_to_item, h, decodeTimestamp, hts]

theorem contains_to_like (t cs : List Char) (h : containsLower t cs = true) :
    likeMatch ('%' :: (t ++ ['%'])) cs = true := by
  rw [likeMatch_pct, List.any_eq_true]
  rcases List.any_eq_true.mp h with ⟨b, hb, hpre⟩
  exact ⟨b, hb, prefixEqLower_to_like t b hpre⟩

theorem touchRows_id_absent (id : Int) (now : String) :
    ∀ s : Store, (∀ r ∈ s, r.id ≠ id) → touchRows id now s = s := by
  intro s
  induction s with
  | nil => intro _; rfl
  | cons r rs ih =>
    intro h
    unfold touchRows at ih ⊢
    rw [List.map_cons, ih (fun x hx => h x (List.mem_cons_of_mem _ hx))]
    have hr : (r.id == id) = false :=
      beq_eq_false_iff_ne.mpr (h r (List.mem_cons_self _ _))
    simp [touchUpdate, hr]

theorem bytesLt_self : ∀ l : List Nat, bytesLt l l = false := by
  intro l
  induction l with
  | nil => rfl
  | cons a as ih => simp [bytesLt, ih]

theorem strLeB_refl (a : String) : strLeB a a = true := by
  unfold strLeB strLtB
  rw [bytesLt_self]
  rfl

theorem like_to_contains (t : List Char) (hw : noWildcards t = true) (cs : List Char)
    (h : likeMatch ('%' :: (t ++ ['%'])) cs = true) : containsLower t cs = true := by
  rw [likeMatch_pct, List.any_eq_true] at h
  rcases h with ⟨b, hb, hm⟩
  rw [like_noWild_elim t hw b] at hm
  exact List.any_eq_true.mpr ⟨b, hb, hm⟩

/-- Claim C1, counterexample: the focused application name "bitwarden"
matches the deny-list entry "Bitwarden" under case-insensitive substring
matching, yet the handler does not discard the event — it inserts a history
row for the copied text, because the code's `str::contains` check is
case-sensitive. -/
theorem c1_counterexample :
    containsLower "Bitwarden".data "bitwarden".data = true ∧
    on_clipboard_change false "bitwarden" "/tmp/i.png" "2025-01-01 00:00:00"
        (some (.text "secret")) ⟨false, []⟩
      = .ok (.next, ⟨false,
          [⟨1, "bitwarden", "/tmp/i.png", "TEXT", .text "secret",
            "2025-01-01 00:00:00"⟩]⟩) := by
  decide

/-- Claim C1, amended: when the focused application's name matches an entry
of the fixed deny-list under CASE-SENSITIVE substring matching
(`isIgnoredApp`), the event is discarded — the handler returns `Next`, the
state is unchanged and no history row is inserted or updated. -/
theorem c1_sensitive_source_case_sensitive :
    ∀ (dbFault : Bool) (app icon now : String) (clip : Option ClipRead)
      (st : MonitorState),
      st.isInternalPaste = false → isIgnoredApp app = true →
      on_clipboard_change dbFault app icon now clip st = .ok (.next, st) := by
  intro dbFault app icon now clip st hflag hig
  cases st with
  | mk f store =>
    simp only [MonitorState.isInternalPaste] at hflag
    subst hflag
    simp [on_clipboard_change, hig]

theorem c1_witness :
    (MonitorState.mk false []).isInternalPaste = false ∧
    isIgnoredApp "Bitwarden" = true ∧
    on_clipboard_change false "Bitwarden" "/tmp/i.png" "2025-01-01 00:00:00"
        (some (.text "pw")) ⟨false, []⟩ = .ok (.next, ⟨false, []⟩) :=
  ⟨rfl, by decide,
   c1_sensitive_source_case_sensitive false "Bitwarden" "/tmp/i.png"
     "2025-01-01 00:00:00" (some (.text "pw")) ⟨false, []⟩ rfl (by decide)⟩

/-- Claim C2, counterexample: touching id 5 on the empty store — an id that
identifies no record — returns `Ok(())`, not a NotFound-style failure. -/
theorem c2_counterexample :
    update_timestamp 5 "2025-01-01 00:00:00" [] = .ok ((), []) := by
  decide

/-- Claim C2, amended: for every id that identifies no record,
`update_timestamp` succeeds with `Ok(())` and leaves the store unchanged —
the UPDATE affects zero rows and its affected-row count is discarded. -/
theorem c2_touch_missing_id_noop :
    ∀ (id : Int) (now : String) (s : Store), (∀ r ∈ s, r.id ≠ id) →
      update_timestamp id now s = .ok ((), s) := by
  intro id now s h
  unfold update_timestamp
  rw [touchRows_id_absent id now s h]

theorem c2_witness :
    (∀ r ∈ [helloRow], r.id ≠ (5 : Int)) ∧
    update_timestamp 5 "2025-01-01 00:00:09" [helloRow] = .ok ((), [helloRow]) :=
  ⟨by decide,
   c2_touch_missing_id_noop 5 "2025-01-01 00:00:09" [helloRow] (by decide)⟩

/-- Claim C7, counterexample: with a failing History Store write, the handler
does not surface the failure and continue — `save_text(..).unwrap()` panics,
so the event callback aborts instead of returning `Next`. -/
theorem c7_counterexample :
    on_clipboard_change true "Code" "/tmp/c.png" "2025-01-01 00:00:00"
        (some (.text "x")) ⟨false, []⟩ = .error .panic := by
  decide

/-- Claim C7, amended: when the store write fails during a clipboard-change
event that reaches the save step (flag clear, focused app not deny-listed),
the handler panics via `unwrap` — for text and for image content alike — and
the monitor thread aborts rather than surfacing the failure and continuing. -/
theorem c7_store_failure_panics :
    ∀ (app icon now t : String) (enc : Option (List Nat)) (st : MonitorState),
      st.isInternalPaste = false → isIgnoredApp app = false →
      on_clipboard_change true app icon now (some (.text t)) st = .error .panic ∧
      on_clipboard_change true app icon now (some (.image enc)) st = .error .panic := by
  intro app icon now t enc st h1 h2
  constructor <;> simp [on_clipboard_change, h1, h2, save_text, save_image]

theorem c7_witness :
    (MonitorState.mk false [helloRow]).isInternalPaste = false ∧
    isIgnoredApp "Notes" = false ∧
    (on_clipboard_change true "Notes" "/tmp/n.png" "2025-01-01 00:00:05"
        (some (.text "zz")) ⟨false, [helloRow]⟩ = .error .panic ∧
     on_clipboard_change true "Notes" "/tmp/n.png" "2025-01-01 00:00:05"
        (some (.image none)) ⟨false, [helloRow]⟩ = .error .panic) :=
  ⟨rfl, by decide,
   c7_store_failure_panics "Notes" "/tmp/n.png" "2025-01-01 00:00:05" "zz" none
     ⟨false, [helloRow]⟩ rfl (by decide)⟩

/-- Claim C8: when `IS_INTERNAL_PASTE` is set, the handler returns `Next`
with the store untouched and the flag cleared (single-use latch), and its
result does not depend on the clipboard read at all — the clipboard content
is not consulted. -/
theorem c8_internal_paste_latch :
    ∀ (dbFault : Bool) (app icon now : String) (clip clip' : Option ClipRead)
      (st : MonitorState),
      st.isInternalPaste = true →
      on_clipboard_change dbFault app icon now clip st
          = .ok (.next, ⟨false, st.store⟩) ∧
      on_clipboard_change dbFault app icon now clip st
          = on_clipboard_change dbFault app icon now clip' st := by
  intro dbFault app icon now clip clip' st h
  cases st with
  | mk f store =>
    simp only [MonitorState.isInternalPaste] at h
    subst h
    constructor
    · simp [on_clipboard_change]
    · simp [on_clipboard_change]

theorem c8_witness :
    (MonitorState.mk true [helloRow]).isInternalPaste = true ∧
    (on_clipboard_change false "Code" "/tmp/c.png" "2025-01-01 00:00:07"
        (some (.text "x")) ⟨true, [helloRow]⟩ = .ok (.next, ⟨false, [helloRow]⟩) ∧
     on_clipboard_change false "Code" "/tmp/c.png" "2025-01-01 00:00:07"
        (some (.text "x")) ⟨true, [helloRow]⟩
       = on_clipboard_change false "Code" "/tmp/c.png" "2025-01-01 00:00:07"
           none ⟨true, [helloRow]⟩) :=
  ⟨rfl,
   c8_internal_paste_latch false "Code" "/tmp/c.png" "2025-01-01 00:00:07"
     (some (.text "x")) none ⟨true, [helloRow]⟩ rfl⟩

/-- Claim C3: on any store reachable through the program's own writes,
upserting the same content identity `(ct, cv)` twice — with any two focus
contexts — leaves exactly one row with that identity, and that row carries
the `source_app`, `icon_path` and `timestamp` of the second capture. -/
theorem c3_upsert_identity_unique :
    ∀ (ct : String) (cv : SqlValue) (a1 i1 t1 a2 i2 t2 : String) (s : Store),
      Reachable s →
      (identRows ct cv
          (upsertRow ct cv a2 i2 t2 (upsertRow ct cv a1 i1 t1 s))).length = 1 ∧
      ∀ r ∈ upsertRow ct cv a2 i2 t2 (upsertRow ct cv a1 i1 t1 s),
        identMatch ct cv r = true →
          r.source_app = a2 ∧ r.icon_path = i2 ∧ r.timestamp = t2 := by
  intro ct cv a1 i1 t1 a2 i2 t2 s hreach
  have h0 : (identRows ct cv s).length ≤ 1 :=
    reachable_identRows_le_one hreach ct cv
  have h1 : (identRows ct cv (upsertRow ct cv a1 i1 t1 s)).length = 1 :=
    upsert_count ct cv a1 i1 t1 s h0
  exact ⟨upsert_count ct cv a2 i2 t2 _ (le_of_eq h1),
         upsert_fields ct cv a2 i2 t2 _⟩

theorem c3_witness :
    Reachable ([] : Store) ∧
    ((identRows "TEXT" (.text "Hello")
        (upsertRow "TEXT" (.text "Hello") "Notes" "/tmp/n.png" "2025-01-01 00:00:01"
          (upsertRow "TEXT" (.text "Hello") "Code" "/tmp/c.png" "2025-01-01 00:00:00"
            []))).length = 1 ∧
     ∀ r ∈ upsertRow "TEXT" (.text "Hello") "Notes" "/tmp/n.png" "2025-01-01 00:00:01"
         (upsertRow "TEXT" (.text "Hello") "Code" "/tmp/c.png" "2025-01-01 00:00:00" []),
       identMatch "TEXT" (.text "Hello") r = true →
         r.source_app = "Notes" ∧ r.icon_path = "/tmp/n.png" ∧
         r.timestamp = "2025-01-01 00:00:01") :=
  ⟨Reachable.init,
   c3_upsert_identity_unique "TEXT" (.text "Hello") "Code" "/tmp/c.png"
     "2025-01-01 00:00:00" "Notes" "/tmp/n.png" "2025-01-01 00:00:01" []
     Reachable.init⟩

/-- Claim C10: a raw image whose PNG encoding fails (`enc = none`, covering a
failed `ImageBuffer::from_raw` and a failed PNG write alike) is stored with
the empty byte string as content, so all failed image captures share the
identity `(IMAGE, empty)`: after any two such captures on a reachable store,
exactly one row holds that identity and its `source_app`, `icon_path`,
`timestamp` are those of the later capture. -/
theorem c10_failed_image_empty_identity :
    ∀ (a1 i1 t1 a2 i2 t2 : String) (s : Store),
      Reachable s →
      (identRows "IMAGE" (.blob [])
          (save_image_rows none a2 i2 t2 (save_image_rows none a1 i1 t1 s))).length = 1 ∧
      ∀ r ∈ save_image_rows none a2 i2 t2 (save_image_rows none a1 i1 t1 s),
        identMatch "IMAGE" (.blob []) r = true →
          r.source_app = a2 ∧ r.icon_path = i2 ∧ r.timestamp = t2 := by
  intro a1 i1 t1 a2 i2 t2 s hreach
  have h0 : (identRows "IMAGE" (.blob []) s).length ≤ 1 :=
    reachable_identRows_le_one hreach "IMAGE" (.blob [])
  have h1 : (identRows "IMAGE" (.blob [])
      (upsertRow "IMAGE" (.blob []) a1 i1 t1 s)).length = 1 :=
    upsert_count "IMAGE" (.blob []) a1 i1 t1 s h0
  exact ⟨upsert_count "IMAGE" (.blob []) a2 i2 t2 _ (le_of_eq h1),
         upsert_fields "IMAGE" (.blob []) a2 i2 t2 _⟩

theorem c10_witness :
    Reachable ([] : Store) ∧
    ((identRows "IMAGE" (.blob [])
        (save_image_rows none "Mail" "/tmp/m.png" "2025-01-01 00:00:03"
          (save_image_rows none "Code" "/tmp/c.png" "2025-01-01 00:00:02"
            []))).length = 1 ∧
     ∀ r ∈ save_image_rows none "Mail" "/tmp/m.png" "2025-01-01 00:00:03"
         (save_image_rows none "Code" "/tmp/c.png" "2025-01-01 00:00:02" []),
       identMatch "IMAGE" (.blob []) r = true →
         r.source_app = "Mail" ∧ r.icon_path = "/tmp/m.png" ∧
         r.timestamp = "2025-01-01 00:00:03") :=
  ⟨Reachable.init,
   c10_failed_image_empty_identity "Code" "/tmp/c.png" "2025-01-01 00:00:02"
     "Mail" "/tmp/m.png" "2025-01-01 00:00:03" [] Reachable.init⟩

/-- Claim C4, counterexample: the limit -1 is ≤ 0, yet `get_recent_records`
on a one-row store returns that row rather than the empty sequence — a
negative SQLite LIMIT places no bound on the result. -/
theorem c4_counterexample :
    ((-1 : Int) ≤ 0) ∧
    get_recent_records (-1) "2025-01-02 00:00:00" [helloRow]
      ≠ .ok ([] : List Item) := by
  decide

/-- Claim C4, amended: limit 0 yields the empty sequence, and every negative
limit yields the same result as `get_all_records` — all rows, descending by
timestamp — instead of an empty sequence. -/
theorem c4_limit_semantics :
    ∀ (limit : Int) (now : String) (s : Store), limit < 0 →
      get_recent_records 0 now s = .ok [] ∧
      get_recent_records limit now s = get_all_records now s := by
  intro limit now s h
  constructor
  · have hz : applyLimit 0 (sortDesc s) = [] := by
      unfold applyLimit
      simp
    unfold get_recent_records
    rw [hz]
    rfl
  · have hneg : applyLimit limit (sortDesc s) = sortDesc s := by
      unfold applyLimit
      rw [if_pos h]
    unfold get_recent_records get_all_records
    rw [hneg]

theorem c4_witness :
    ((-1 : Int) < 0) ∧
    (get_recent_records 0 "2025-01-02 00:00:00" [helloRow] = .ok [] ∧
     get_recent_records (-1) "2025-01-02 00:00:00" [helloRow]
       = get_all_records "2025-01-02 00:00:00" [helloRow]) :=
  ⟨by decide,
   c4_limit_semantics (-1) "2025-01-02 00:00:00" [helloRow] (by decide)⟩

/-- Claim C5, counterexample: searching for the term "%" returns the stored
text row "Hello" although "Hello" does not contain "%" — neither
case-insensitively nor case-sensitively — because `%` acts as a `LIKE`
wildcard inside the search pattern. -/
theorem c5_counterexample :
    searchFilter "%" [helloRow] = [helloRow] ∧
    containsLower "%".data "Hello".data = false ∧
    strContains "Hello" "%" = false := by
  decide

/-- Claim C5, amended: `search_text` selects only TEXT rows (never an IMAGE
record); it selects every TEXT row whose content contains the term as an
ASCII-case-insensitive substring (the consistent case policy of SQLite's
default LIKE); and, for terms free of the LIKE wildcards `%` and `_`, it
selects no TEXT row whose content does not contain the term.  Terms with
wildcards can select rows that do not contain them (see the counterexample). -/
theorem c5_search_scope :
    ∀ (term : String) (s : Store),
      (∀ r ∈ sortDesc (searchFilter term s), r.content_type = "TEXT") ∧
      (∀ r ∈ s, ∀ t : String, r.content_type = "TEXT" → r.content = SqlValue.text t →
        containsLower term.data t.data = true → r ∈ sortDesc (searchFilter term s)) ∧
      (noWildcards term.data = true →
        ∀ r ∈ sortDesc (searchFilter term s), ∀ t : String,
          r.content = SqlValue.text t → containsLower term.data t.data = true) := by
  intro term s
  refine ⟨?_, ?_, ?_⟩
  · intro r hr
    have hf := (List.mem_filter.mp (mem_sortDesc.mp hr)).2
    exact beq_iff_eq.mp ((Bool.and_eq_true _ _).mp hf).1
  · intro r hr t hct hcv hcontains
    apply mem_sortDesc.mpr
    apply List.mem_filter.mpr
    refine ⟨hr, ?_⟩
    rw [Bool.and_eq_true]
    refine ⟨beq_iff_eq.mpr hct, ?_⟩
    unfold rowLikeMatch
    rw [hcv]
    exact contains_to_like term.data t.data hcontains
  · intro hw r hr t hcv
    have hf := (List.mem_filter.mp (mem_sortDesc.mp hr)).2
    have hlike := ((Bool.and_eq_true _ _).mp hf).2
    unfold rowLikeMatch at hlike
    rw [hcv] at hlike
    exact like_to_contains term.data hw t.data hlike

theorem c5_witness :
    helloRow.content_type = "TEXT" ∧
    helloRow ∈ sortDesc (searchFilter "ell" [helloRow]) ∧
    containsLower "ell".data "Hello".data = true :=
  ⟨(c5_search_scope "ell" [helloRow]).1 helloRow (by decide),
   (c5_search_scope "ell" [helloRow]).2.1 helloRow (by decide) "Hello" rfl rfl
     (by decide),
   (c5_search_scope "ell" [helloRow]).2.2 (by decide) helloRow (by decide) "Hello"
     rfl⟩

/-- Claim C6, counterexample: one row whose stored `content_type` is "FILE"
makes the whole `get_all_records` query abort through `unreachable!()` — the
intact second row is lost with it, so an unexpected stored type is not
repaired with a safe default. -/
theorem c6_counterexample :
    get_all_records "2025-01-02 00:00:00" [corruptTypeRow, helloRow]
      = .error .panic := by
  decide

/-- Claim C6, amended: for rows whose stored `content_type` is "TEXT" or
"IMAGE", queries succeed whatever the stored timestamps are — a row with an
unparsable timestamp decodes with the fallback `now` (`Utc::now()`) instead
of failing; but a row with any other stored `content_type` panics and aborts
the surrounding query (see the counterexample). -/
theorem c6_row_decode :
    ∀ (now : String) (s : Store),
      (∀ r ∈ s, r.content_type = "TEXT" ∨ r.content_type = "IMAGE") →
      (∃ items, get_all_records now s = .ok items) ∧
      (∀ r ∈ s, parseTimestamp r.timestamp = none →
        ∃ it, row_to_item now r = .ok it ∧ it.timestamp = now) := by
  intro now s h
  constructor
  · unfold get_all_records
    apply collectResults_ok
    intro r hr
    exact row_to_item_ok now r (h r (mem_sortDesc.mp hr))
  · intro r hr hts
    exact row_to_item_ts_fallback now r (h r hr) hts

theorem c6_witness :
    (∀ r ∈ [badTsRow, helloRow],
      r.content_type = "TEXT" ∨ r.content_type = "IMAGE") ∧
    ((∃ items, get_all_records "2025-01-02 00:00:00" [badTsRow, helloRow]
        = .ok items) ∧
     (∀ r ∈ [badTsRow, helloRow], parseTimestamp r.timestamp = none →
       ∃ it, row_to_item "2025-01-02 00:00:00" r = .ok it ∧
         it.timestamp = "2025-01-02 00:00:00")) :=
  ⟨by decide,
   c6_row_decode "2025-01-02 00:00:00" [badTsRow, helloRow] (by decide)⟩

/-- Claim C9: touching an id changes no row's `id`, `source_app`,
`icon_path`, `content_type` or `content`; rows with other ids keep their
timestamp, and — under clock monotonicity, i.e. every stored timestamp of
the touched id is at most `now` — each row's timestamp only grows. -/
theorem c9_touch_frame :
    ∀ (id : Int) (now : String) (s : Store),
      (∀ r ∈ s, r.id = id → strLeB r.timestamp now = true) →
      ∃ s', update_timestamp id now s = .ok ((), s') ∧ s'.length = s.length ∧
        ∀ (k : Nat) (hk : k < s.length) (hk' : k < s'.length),
          s'[k].id = s[k].id ∧ s'[k].source_app = s[k].source_app ∧
          s'[k].icon_path = s[k].icon_path ∧
          s'[k].content_type = s[k].content_type ∧
          s'[k].content = s[k].content ∧
          strLeB s[k].timestamp s'[k].timestamp = true ∧
          (s[k].id ≠ id → s'[k].timestamp = s[k].timestamp) := by
  intro id now s hmono
  refine ⟨touchRows id now s, rfl, by simp [touchRows], ?_⟩
  intro k hk hk'
  have hget : (touchRows id now s)[k] = touchUpdate id now s[k] := by
    simp [touchRows]
  rw [hget]
  by_cases hid : s[k].id = id
  · have hb : (s[k].id == id) = true := beq_iff_eq.mpr hid
    have ht : touchUpdate id now s[k] = { s[k] with timestamp := now } := by
      simp [touchUpdate, hb]
    rw [ht]
    exact ⟨rfl, rfl, rfl, rfl, rfl, hmono s[k] (List.getElem_mem hk) hid,
           fun hne => absurd hid hne⟩
  · have hb : (s[k].id == id) = false := beq_eq_false_iff_ne.mpr hid
    have ht : touchUpdate id now s[k] = s[k] := by
      simp [touchUpdate, hb]
    rw [ht]
    exact ⟨rfl, rfl, rfl, rfl, rfl, strLeB_refl _, fun _ => rfl⟩

theorem c9_witness :
    (∀ r ∈ [helloRow], r.id = (1 : Int) →
      strLeB r.timestamp "2025-01-02 00:00:00" = true) ∧
    (∃ s', update_timestamp 1 "2025-01-02 00:00:00" [helloRow] = .ok ((), s') ∧
      s'.length = [helloRow].length ∧
      ∀ (k : Nat) (hk : k < [helloRow].length) (hk' : k < s'.length),
        s'[k].id = [helloRow][k].id ∧
        s'[k].source_app = [helloRow][k].source_app ∧
        s'[k].icon_path = [helloRow][k].icon_path ∧
        s'[k].content_type = [helloRow][k].content_type ∧
        s'[k].content = [helloRow][k].content ∧
        strLeB [helloRow][k].timestamp s'[k].timestamp = true ∧
        ([helloRow][k].id ≠ (1 : Int) → s'[k].timestamp = [helloRow][k].timestamp)) :=
  ⟨by decide,
   c9_touch_frame 1 "2025-01-02 00:00:00" [helloRow] (by decide)⟩

end Paste
